import Mathlib

/-!
# Verification of the position risk & lifecycle engine

Shallow embedding, over `ℚ`, of the core of the crypto-trading-bot
repository: the risk sizer (`bot/risk.py`), the exit-evaluation state
machine (`bot/trade_executor.py`), the safety gate (`bot/safety.py`),
the reconciler (`bot/sync.py`) and the lot-size adjustment of the
exchange adapter (`bot/exchange_okx.py`).  Prices, sizes and margins are
rationals; Python `round` is modelled by round-half-to-even on exact
decimals; `None` is modelled by `Option`; dicts are association lists.
-/

namespace Bot

/-- Python `round(x)` to the nearest integer, ties to even
(round-half-even), on exact rational inputs. -/
def pyRoundInt (x : ℚ) : ℤ :=
  let n := ⌊x⌋
  let r := x - (n : ℚ)
  if r < 1/2 then n
  else if 1/2 < r then n + 1
  else if n % 2 = 0 then n else n + 1

/-- Python `round(x, k)` on exact rational inputs. -/
def pyRound (x : ℚ) (k : ℕ) : ℚ :=
  (pyRoundInt (x * (10:ℚ)^k) : ℚ) / (10:ℚ)^k

/-- Trade direction, the `"long"` / `"short"` strings of the source. -/
inductive Direction where
  | long : Direction
  | short : Direction
deriving DecidableEq, Repr

/-- One OHLC candle row as used by `get_stop_and_size`
(`bot/risk.py`): only the `h`, `l`, `c` columns are read. -/
structure Candle where
  h : ℚ
  l : ℚ
  c : ℚ
deriving DecidableEq, Repr

/-- The true-range series of `calculate_atr` (`bot/risk.py` lines
7-33): row 0 has NaN `prev_close`, so its row-wise max (pandas skips
NaN) is `h - l`; every later row is
`max(h-l, |h-prev_close|, |l-prev_close|)`. -/
def trueRanges : List Candle → List ℚ
  | [] => []
  | c0 :: rest => (c0.h - c0.l) :: go c0 rest
where
  go : Candle → List Candle → List ℚ
    | _, [] => []
    | prev, c :: rest =>
        max (c.h - c.l) (max |c.h - prev.c| |c.l - prev.c|) :: go c rest

/-- Embedding of `calculate_atr(df, period=14)` (`bot/risk.py` lines 7-33): a
14-window rolling mean of true range; the value at the last row is NaN
unless at least 14 rows exist, and a NaN or non-positive result
returns `None`. -/
def calculate_atr (cs : List Candle) : Option ℚ :=
  let trs := trueRanges cs
  if trs.length < 14 then none
  else
    let atr := (trs.drop (trs.length - 14)).sum / 14
    if atr ≤ 0 then none else some atr

/-- Embedding of `calculate_profit_levels(entry_price, stop_loss, direction)`
(`bot/risk.py` lines 35-60): the four R-multiple target prices, as the
dict literal of the source (precision 10 below a 0.001 entry price,
else 6). -/
def calculate_profit_levels (entry_price stop_loss : ℚ)
    (direction : Direction) : List (String × ℚ) :=
  let risk := |entry_price - stop_loss|
  let precision : ℕ := if entry_price < 1/1000 then 10 else 6
  match direction with
  | .long =>
      [("1R", pyRound (entry_price + 1 * risk) precision),
       ("2R", pyRound (entry_price + 2 * risk) precision),
       ("3R", pyRound (entry_price + 3 * risk) precision),
       ("4R", pyRound (entry_price + 4 * risk) precision)]
  | .short =>
      [("1R", pyRound (entry_price - 1 * risk) precision),
       ("2R", pyRound (entry_price - 2 * risk) precision),
       ("3R", pyRound (entry_price - 3 * risk) precision),
       ("4R", pyRound (entry_price - 4 * risk) precision)]

/-- Embedding of `calculate_trailing_stop(current_price, high_water_mark, atr,
direction)` (`bot/risk.py` lines 69-78): high-water mark minus (long)
or plus (short) twice the ATR, rounded to 6 decimals; the
`current_price` argument is unused by the source. -/
def calculate_trailing_stop (_current_price high_water_mark atr : ℚ)
    (direction : Direction) : ℚ :=
  let trailing_distance := atr * 2
  match direction with
  | .long => pyRound (high_water_mark - trailing_distance) 6
  | .short => pyRound (high_water_mark + trailing_distance) 6

/-- First-match lookup in an association list, the read side of a
Python dict (whose keys are unique). -/
def dlookup {α : Type} : List (String × α) → String → Option α
  | [], _ => none
  | (k', v) :: rest, k => if k' = k then some v else dlookup rest k

/-- Key assignment in an association list, the write side of a Python
dict: overwrite the existing binding, or append a new one. -/
def dset {α : Type} : List (String × α) → String → α → List (String × α)
  | [], k, v => [(k, v)]
  | (k', v') :: rest, k, v =>
      if k' = k then (k, v) :: rest else (k', v') :: dset rest k v

/-- A position record, the per-symbol dict held in `open_trades`
(`bot/trade_executor.py` lines 157-177).  Fields read through `.get`
with a default in the source (`stop_loss`, `take_profit`,
`high_water_mark`) or absent on reconciler-created bare records are
`Option`s / empty lists. -/
structure Trade where
  direction : Direction
  entry_price : ℚ
  size : ℚ
  original_size : ℚ
  stop_loss : Option ℚ
  take_profit : Option ℚ
  profit_levels : List (String × ℚ)
  profits_taken : List (String × Bool)
  high_water_mark : Option ℚ
  trailing_stop_active : Bool
  atr : ℚ
  signal_type : String
  opened_at : ℚ
  paper_trade : Bool
  synced_from_exchange : Bool
deriving DecidableEq, Repr

/-- The high-water-mark update of `check_and_close_trades`
(`bot/trade_executor.py` lines 211-215): move to the current price only
on a strictly favorable excursion, defaulting a missing mark to the
entry price. -/
def hwmUpdate (tr : Trade) (current_price : ℚ) : Trade :=
  let hwm := tr.high_water_mark.getD tr.entry_price
  match tr.direction with
  | .long =>
      if hwm < current_price then { tr with high_water_mark := some current_price } else tr
  | .short =>
      if current_price < hwm then { tr with high_water_mark := some current_price } else tr

/-- The profit-level scan of `check_and_close_trades`
(`bot/trade_executor.py` lines 228-279).  Levels are visited in the
order `["1R","2R","3R","4R"]`; the first unrealized level whose target
is reached is processed and the loop breaks.  On a successful
reduce-only exit the size shrinks and the level is marked; the stop
ratchet then reads `profit_levels["1R"]` / `profit_levels["2R"]` —
but line 243 of the source has rebound `profit_levels` to the
*config profit-fraction dict*, so those subscripts return the
configured fraction (`cfgFracs`), or raise `KeyError` (`.error`) when
the key is absent.  The boolean paired with the trade records whether
`position_storage.save_position` was called.  `orderOk` is the oracle
for the reduce-only order's success; paper trades always succeed. -/
def levelLoop (cfgFracs : List (String × ℚ)) (orderOk : Bool) (current_price : ℚ) :
    Trade → List String → Except Unit (Trade × Bool)
  | tr, [] => .ok (tr, false)
  | tr, lvl :: rest =>
    match dlookup tr.profit_levels lvl with
    | none => levelLoop cfgFracs orderOk current_price tr rest
    | some target_price =>
      if (dlookup tr.profits_taken lvl).getD false then
        levelLoop cfgFracs orderOk current_price tr rest
      else
        let hit_target : Bool :=
          match tr.direction with
          | .long => decide (target_price ≤ current_price)
          | .short => decide (current_price ≤ target_price)
        if hit_target then
          let profit_pct := (dlookup cfgFracs lvl).getD (1/4)
          let exit_size := pyRound (tr.size * profit_pct) 4
          let remaining_size := pyRound (tr.size - exit_size) 4
          if tr.paper_trade || orderOk then
            let tr1 := { tr with
              size := remaining_size
              profits_taken := dset tr.profits_taken lvl true }
            if lvl = "1R" then
              .ok ({ tr1 with stop_loss := some tr.entry_price }, true)
            else if lvl = "2R" then
              match dlookup cfgFracs "1R" with
              | none => .error ()
              | some v => .ok ({ tr1 with stop_loss := some v }, true)
            else if lvl = "3R" then
              match dlookup cfgFracs "2R" with
              | none => .error ()
              | some v => .ok ({ tr1 with stop_loss := some v }, true)
            else if lvl = "4R" then
              .ok ({ tr1 with trailing_stop_active := true }, true)
            else
              .ok (tr1, true)
          else
            .ok (tr, false)
        else
          levelLoop cfgFracs orderOk current_price tr rest

/-- The trailing-stop block of `check_and_close_trades`
(`bot/trade_executor.py` lines 281-313): when trailing mode is active
and the ATR is positive, a candidate stop is computed from the
high-water mark and accepted only if it lies in the sanity band
relative to the entry price (`[0.5, 0.95]×entry` for a long,
`[1.05, 2.0]×entry` for a short) and strictly improves on the current
stop. -/
def trailingStage (tr : Trade) (current_price : ℚ) : Trade :=
  if tr.trailing_stop_active ∧ 0 < tr.atr then
    let high_water_mark := tr.high_water_mark.getD tr.entry_price
    let trailing_sl := calculate_trailing_stop current_price high_water_mark tr.atr tr.direction
    let valid_trailing_stop : Bool :=
      match tr.direction with
      | .long =>
          decide (tr.entry_price * (5/10) ≤ trailing_sl ∧ trailing_sl ≤ tr.entry_price * (95/100))
      | .short =>
          decide (tr.entry_price * (105/100) ≤ trailing_sl ∧ trailing_sl ≤ tr.entry_price * 2)
    if valid_trailing_stop then
      match tr.stop_loss with
      | some sl =>
        match tr.direction with
        | .long => if sl < trailing_sl then { tr with stop_loss := some trailing_sl } else tr
        | .short => if trailing_sl < sl then { tr with stop_loss := some trailing_sl } else tr
      | none => tr
    else tr
  else tr

/-- The stop-loss breach test of `check_and_close_trades`
(`bot/trade_executor.py` lines 315-322): price at or through the stop
in the adverse direction.  The `none` case cannot arise after the
stop-loss guard of the pass (the source reads `trade["stop_loss"]`
directly). -/
def stopBreached (tr : Trade) (current_price : ℚ) : Bool :=
  match tr.stop_loss with
  | none => false
  | some sl =>
    match tr.direction with
    | .long => decide (current_price ≤ sl)
    | .short => decide (sl ≤ current_price)

/-- Outcome of one per-symbol pass of `check_and_close_trades`:
a `KeyError` escape from the shadowed-dict subscript, a full close
(record removed from ledger and store), or a live position (with a
flag recording whether the record was flushed to the store). -/
inductive StepRes where
  | keyError : StepRes
  | closed (tr : Trade) : StepRes
  | live (tr : Trade) (saved : Bool) : StepRes
deriving DecidableEq, Repr

/-- The position state carried by a step outcome, if any. -/
def StepRes.state? : StepRes → Option Trade
  | .keyError => none
  | .closed tr => some tr
  | .live tr _ => some tr

/-- One per-symbol iteration of `check_and_close_trades`
(`bot/trade_executor.py` lines 196-331): skip when no price or no stop
loss, update the high-water mark, scan the profit levels, run the
trailing-stop block, then close on a stop breach. -/
def evalStep (cfgFracs : List (String × ℚ)) (tr : Trade)
    (price? : Option ℚ) (orderOk : Bool) : StepRes :=
  match price? with
  | none => .live tr false
  | some current_price =>
    match tr.stop_loss with
    | none => .live tr false
    | some _ =>
      let tr0 := hwmUpdate tr current_price
      match levelLoop cfgFracs orderOk current_price tr0 ["1R", "2R", "3R", "4R"] with
      | .error _ => .keyError
      | .ok (tr1, saved) =>
        let tr2 := trailingStage tr1 current_price
        if stopBreached tr2 current_price then .closed tr2
        else .live tr2 saved

/-- Margin snapshot dict as returned by `get_account_margin_info`
(`bot/exchange_okx.py`): available balance, total equity, used margin. -/
structure MarginInfo where
  availBal : ℚ
  totalEq : ℚ
  used_margin : ℚ
deriving DecidableEq, Repr

/-- The configuration keys read by `get_stop_and_size`
(`bot/risk.py`) through `config.get(...)`; `none` models an absent
key, resolved by the source's defaults. -/
structure SizerConfig where
  memecoins : List String
  margin_per_position_pct : Option ℚ
  btc_margin_per_position_pct : Option ℚ
  memecoin_margin_per_position_pct : Option ℚ
  stop_loss_multiplier : Option ℚ
deriving DecidableEq, Repr

/-- Table `leverage_estimates` (`bot/risk.py` lines 192-202): fixed 10x for
every listed symbol, default 10. -/
def leverage_estimates : List (String × ℚ) :=
  [("BTC-USDT-SWAP", 10), ("ETH-USDT-SWAP", 10), ("SOL-USDT-SWAP", 10),
   ("XRP-USDT-SWAP", 10), ("LTC-USDT-SWAP", 10), ("ADA-USDT-SWAP", 10),
   ("AVAX-USDT-SWAP", 10), ("LINK-USDT-SWAP", 10), ("NEAR-USDT-SWAP", 10)]

/-- Table `contract_multipliers` (`bot/risk.py` lines 212-227). -/
def contract_multipliers : List (String × ℚ) :=
  [("BTC-USDT-SWAP", 1/100), ("ETH-USDT-SWAP", 1/10), ("SOL-USDT-SWAP", 1),
   ("XRP-USDT-SWAP", 100), ("LTC-USDT-SWAP", 1), ("ADA-USDT-SWAP", 100),
   ("AVAX-USDT-SWAP", 1), ("LINK-USDT-SWAP", 1), ("NEAR-USDT-SWAP", 10),
   ("BONK-USDT-SWAP", 1000000), ("PEPE-USDT-SWAP", 1000000),
   ("PENGU-USDT-SWAP", 1000)]

/-- Table `okx_position_limits` (`bot/risk.py` lines 239-254), default 10000. -/
def okx_position_limits : List (String × ℚ) :=
  [("BTC-USDT-SWAP", 100000), ("ETH-USDT-SWAP", 100000), ("SOL-USDT-SWAP", 50000),
   ("XRP-USDT-SWAP", 10000), ("LTC-USDT-SWAP", 50000), ("ADA-USDT-SWAP", 10000),
   ("AVAX-USDT-SWAP", 50000), ("LINK-USDT-SWAP", 50000), ("NEAR-USDT-SWAP", 50000),
   ("BONK-USDT-SWAP", 100), ("PEPE-USDT-SWAP", 100), ("PENGU-USDT-SWAP", 1000)]

/-- The dict returned by `get_stop_and_size` (`bot/risk.py` lines
354-359). -/
structure SizeResult where
  size : ℚ
  atr : ℚ
  stop_loss : ℚ
  risk_amount : ℚ
deriving DecidableEq, Repr

/-- The zero-size failure value of `get_stop_and_size`. -/
def zeroSizing (entry_price : ℚ) : SizeResult :=
  { size := 0, atr := 0, stop_loss := entry_price, risk_amount := 0 }

/-- Maximum of a list of rationals (`pandas` column max; the empty
case never arises in the source). -/
def listMax : List ℚ → ℚ
  | [] => 0
  | x :: rest => rest.foldl max x

/-- Minimum of a list of rationals. -/
def listMin : List ℚ → ℚ
  | [] => 0
  | x :: rest => rest.foldl min x

/-- Embedding of `get_stop_and_size(symbol, entry_price, direction, candles)`
(`bot/risk.py` lines 82-359): ATR with an emergency recent-range
fallback and a [0.5%, 5%]-of-entry clamp; margin-allocation-based
sizing with per-symbol-class allocations, a fixed 10x leverage
estimate, contract multipliers and exchange position limits; an
ATR-multiple stop clamped into a [0.5%, 8%]-of-entry band; and a final
25%-of-available-margin cap for non-BTC symbols.  `marginInfo?` is the
`get_account_margin_info` result (`none` = falsy) and
`equityFallback` the `get_account_equity` fallback value. -/
def get_stop_and_size (cfg : SizerConfig) (symbol : String) (entry_price : ℚ)
    (direction : Direction) (candles? : Option (List Candle))
    (marginInfo? : Option MarginInfo) (equityFallback : ℚ) : SizeResult :=
  match candles? with
  | none => zeroSizing entry_price
  | some candle_data =>
    if candle_data.length = 0 then zeroSizing entry_price
    else
      let atr1 : ℚ :=
        match calculate_atr candle_data with
        | some a => a
        | none =>
            let recent := candle_data.drop (candle_data.length - 5)
            let recent_high := listMax (recent.map Candle.h)
            let recent_low := listMin (recent.map Candle.l)
            (recent_high - recent_low) / 5
      let min_atr := entry_price * (5/1000)
      let max_atr := entry_price * (5/100)
      let atr := if atr1 < min_atr then min_atr
                 else if max_atr < atr1 then max_atr else atr1
      if atr ≤ 0 then zeroSizing entry_price
      else
        let available_margin0 : ℚ :=
          match marginInfo? with
          | some mi => mi.availBal
          | none => equityFallback
        let margin_per_position_pct := cfg.margin_per_position_pct.getD (10/100)
        let target_margin0 : ℚ :=
          if symbol = "BTC-USDT-SWAP" then
            available_margin0 * (cfg.btc_margin_per_position_pct.getD (5/100))
          else if symbol ∈ cfg.memecoins then
            available_margin0 * (cfg.memecoin_margin_per_position_pct.getD (25/1000))
          else
            available_margin0 * margin_per_position_pct
        let p : ℚ × ℚ :=
          match marginInfo? with
          | some mi =>
              if 1 < |available_margin0 - mi.availBal| then
                (mi.availBal, mi.availBal * margin_per_position_pct)
              else (available_margin0, target_margin0)
          | none => (available_margin0, target_margin0)
        let available_margin := p.1
        let target_margin := p.2
        let estimated_leverage := (dlookup leverage_estimates symbol).getD 10
        let contract_multiplier := (dlookup contract_multipliers symbol).getD 1
        let notional_position_value := target_margin * estimated_leverage
        let size0 := notional_position_value / (entry_price * contract_multiplier)
        let max_contracts := (dlookup okx_position_limits symbol).getD 10000
        let size1 := if max_contracts < size0 then max_contracts else size0
        let sl_multiplier := cfg.stop_loss_multiplier.getD 2
        let sl_distance := atr * sl_multiplier
        let stop_loss0 : ℚ :=
          match direction with
          | .long => entry_price - sl_distance
          | .short => entry_price + sl_distance
        let price_diff0 := |entry_price - stop_loss0|
        let min_price_diff := entry_price * (5/1000)
        let max_price_diff := entry_price * (8/100)
        let q : ℚ × ℚ :=
          if price_diff0 < min_price_diff then
            (min_price_diff,
             match direction with
             | .long => entry_price - min_price_diff
             | .short => entry_price + min_price_diff)
          else if max_price_diff < price_diff0 then
            (max_price_diff,
             match direction with
             | .long => entry_price - max_price_diff
             | .short => entry_price + max_price_diff)
          else (price_diff0, stop_loss0)
        let price_diff := q.1
        let stop_loss := q.2
        let risk1 := size1 * price_diff
        let actual_margin_estimate := size1 * entry_price / estimated_leverage
        let r : ℚ × ℚ :=
          if symbol ≠ "BTC-USDT-SWAP" then
            let max_margin_per_position := available_margin * (25/100)
            if max_margin_per_position < actual_margin_estimate then
              let s := (max_margin_per_position * estimated_leverage) / entry_price
              (s, s * price_diff)
            else (size1, risk1)
          else (size1, risk1)
        let size2 := r.1
        let risk_amount := r.2
        let size3 := if size2 ≤ 0 then 0 else size2
        { size := pyRound size3 4
          atr := atr
          stop_loss := pyRound stop_loss 6
          risk_amount := pyRound risk_amount 2 }

/-- Table `lot_sizes` of `get_valid_lot_size` (`bot/exchange_okx.py` lines
127-145), with the `DEFAULT` entry modelled as the lookup default. -/
def lot_sizes : List (String × ℚ) :=
  [("BTC-USDT-SWAP", 1/100), ("ETH-USDT-SWAP", 1/100), ("SOL-USDT-SWAP", 1/10),
   ("XRP-USDT-SWAP", 1/10), ("LTC-USDT-SWAP", 1), ("ADA-USDT-SWAP", 1),
   ("AVAX-USDT-SWAP", 1/10), ("LINK-USDT-SWAP", 1/10), ("NEAR-USDT-SWAP", 1/10),
   ("BONK-USDT-SWAP", 10), ("PEPE-USDT-SWAP", 100), ("PENGU-USDT-SWAP", 1)]

/-- The lot size actually used for a symbol (table value or the 0.1
default). -/
def lotSize (symbol : String) : ℚ := (dlookup lot_sizes symbol).getD (1/10)

/-- Value of `len(str(lot_size).split('.')[-1])` for the sub-1 lot sizes that
occur in `lot_sizes` (0.01 prints with 2 decimal digits, 0.1 with 1). -/
def lotDecimalPlaces (lot : ℚ) : ℕ := if lot = 1/100 then 2 else 1

/-- Embedding of `get_valid_lot_size(symbol, size)` (`bot/exchange_okx.py` lines
121-166): round the size to a whole number of lots, floor the result
at one lot, then re-round to clean the decimal representation. -/
def get_valid_lot_size (symbol : String) (size : ℚ) : ℚ :=
  let lot := lotSize symbol
  let lots := pyRoundInt (size / lot)
  let rounded_size0 := (lots : ℚ) * lot
  let rounded_size := if rounded_size0 < lot then lot else rounded_size0
  if 1 ≤ lot then (pyRoundInt rounded_size : ℚ)
  else pyRound rounded_size (lotDecimalPlaces lot)

/-- The environment of one `enter_trade` call
(`bot/trade_executor.py` lines 93-190): results of the external calls
it makes, in source order.  `orderCode` is the `code` field of the
`place_order` response in live mode (paper mode fabricates `"0"`). -/
structure EnterEnv where
  paper_trading : Bool
  safetyAllow : Bool
  price? : Option ℚ
  candles? : Option (List Candle)
  marginInfo? : Option MarginInfo
  equityFallback : ℚ
  validateOk : Bool
  orderCode : String
  now : ℚ
deriving DecidableEq, Repr

/-- Embedding of `enter_trade(symbol, direction, signal_type)`
(`bot/trade_executor.py` lines 93-190), acting on a ledger (the
`open_trades` dict).  Returns the new ledger and whether
`position_storage.save_position` was called.  Every failure path
(safety block, no price, no candles, zero sizing, size validation,
margin-validation rejection, other order failure) returns the ledger
unchanged. -/
def enter_trade (cfg : SizerConfig) (env : EnterEnv)
    (ledger : List (String × Trade)) (symbol : String)
    (direction : Direction) (signal_type : String) :
    List (String × Trade) × Bool :=
  if ¬env.safetyAllow then (ledger, false) else
  match env.price? with
  | none => (ledger, false)
  | some current_price =>
    match env.candles? with
    | none => (ledger, false)
    | some candle_data =>
      if candle_data.length = 0 then (ledger, false)
      else
        let sizing := get_stop_and_size cfg symbol current_price direction
          (some candle_data) env.marginInfo? env.equityFallback
        if sizing.size ≤ 0 then (ledger, false)
        else if ¬env.validateOk then (ledger, false)
        else
          let code := if env.paper_trading then "0" else env.orderCode
          if code = "0" then
            let stop_loss := sizing.stop_loss
            let profit_levels := calculate_profit_levels current_price stop_loss direction
            let take_profit := (dlookup profit_levels "2R").getD 0
            let position_data : Trade := {
              direction := direction
              entry_price := current_price
              size := sizing.size
              original_size := sizing.size
              stop_loss := some stop_loss
              take_profit := some take_profit
              profit_levels := profit_levels
              profits_taken := [("1R", false), ("2R", false), ("3R", false), ("4R", false)]
              high_water_mark := some current_price
              trailing_stop_active := false
              atr := sizing.atr
              signal_type := signal_type
              opened_at := env.now
              paper_trade := env.paper_trading
              synced_from_exchange := false }
            (dset ledger symbol position_data, true)
          else (ledger, false)

/-- The mutable state of `SafetyManager` (`bot/safety.py` lines 6-25),
with the configured limits it was constructed from. -/
structure Safety where
  starting_equity : ℚ
  equity_kill_switch_pct : ℚ
  max_open_trades : ℕ
  daily_loss_limit_pct : ℚ
  consecutive_losses : ℕ
  last_equity_check : ℚ
  equity_check_interval : ℚ
  emergency_stop : Bool
deriving DecidableEq, Repr

/-- Embedding of `SafetyManager.check_equity_kill_switch` (`bot/safety.py` lines
27-55).  `equity?` is the `get_account_equity` call: `none` models the
call raising, which the source catches and fails open (returns `True`
with no state change).  A kill-switch or daily-loss breach sets the
sticky `emergency_stop` flag and returns `False`. -/
def check_equity_kill_switch (s : Safety) (equity? : Option ℚ) : Bool × Safety :=
  match equity? with
  | none => (true, s)
  | some current_equity =>
    let equity_kill_threshold := s.starting_equity * s.equity_kill_switch_pct
    let daily_loss_threshold := s.starting_equity * s.daily_loss_limit_pct
    if current_equity ≤ equity_kill_threshold then
      (false, { s with emergency_stop := true })
    else if daily_loss_threshold ≤ s.starting_equity - current_equity then
      (false, { s with emergency_stop := true })
    else
      (true, s)

/-- Embedding of `SafetyManager.check_position_limits` (`bot/safety.py` lines
57-62): false at or above the configured maximum open-trade count. -/
def check_position_limits (s : Safety) (openCount : ℕ) : Bool :=
  decide (openCount < s.max_open_trades)

/-- Embedding of `SafetyManager.should_allow_trading` (`bot/safety.py` lines
139-158): emergency stop short-circuits; otherwise the equity check
runs at most once per check interval (its breach returning false
without refreshing the check timestamp), then the position-count
limit. -/
def should_allow_trading (s : Safety) (now : ℚ) (equity? : Option ℚ)
    (openCount : ℕ) : Bool × Safety :=
  if s.emergency_stop then (false, s)
  else
    let step : Bool × Safety :=
      if s.equity_check_interval < now - s.last_equity_check then
        let c := check_equity_kill_switch s equity?
        if ¬c.1 then (false, c.2)
        else (true, { c.2 with last_equity_check := now })
      else (true, s)
    if ¬step.1 then (false, step.2)
    else if ¬check_position_limits step.2 openCount then (false, step.2)
    else (true, step.2)

/-- Embedding of `SafetyManager.reset_emergency_stop` (`bot/safety.py` lines
122-125): unconditional manual clear. -/
def reset_emergency_stop (s : Safety) : Safety := { s with emergency_stop := false }

/-- A sequence of `should_allow_trading` calls, threading the safety
state; each triple is (wall-clock time, equity-fetch result, open
position count). -/
def runCalls : Safety → List (ℚ × Option ℚ × ℕ) → List Bool × Safety
  | s, [] => ([], s)
  | s, (now, eq, c) :: rest =>
      let r := should_allow_trading s now eq c
      let rr := runCalls r.2 rest
      (r.1 :: rr.1, rr.2)

/-- One exchange-reported open position, as consumed by
`sync_positions_with_exchange` (`bot/sync.py`): instrument id, signed
contract count (`size`), average entry price (`avgPx`). -/
structure ExchangePos where
  instId : String
  size : ℚ
  avgPx : ℚ
deriving DecidableEq, Repr

/-- Ledger (`open_trades`) plus durable store (`position_storage`),
the two symbol-keyed maps the reconciler mutates. -/
structure SyncState where
  open_trades : List (String × Trade)
  storage : List (String × Trade)
deriving DecidableEq, Repr

/-- Python `symbol in dict`. -/
def containsKey {α : Type} (d : List (String × α)) (k : String) : Bool :=
  d.any (fun p => decide (p.1 = k))

/-- Python dict key deletion (`pop` / `del`); dict keys are unique, so
removing every matching binding coincides with removing the one. -/
def dremove {α : Type} (d : List (String × α)) (k : String) : List (String × α) :=
  d.filter (fun p => decide (¬p.1 = k))

/-- Removal of a batch of keys, the `symbols_to_remove` loop of
`sync_positions_with_exchange`. -/
def removeAll {α : Type} : List (String × α) → List String → List (String × α)
  | d, [] => d
  | d, k :: rest => removeAll (dremove d k) rest

/-- Python truthiness of a stored optional price (`None` and `0.0` are
falsy). -/
def truthy? : Option ℚ → Bool
  | none => false
  | some v => decide (v ≠ 0)

/-- Membership test `symbol in exchange_positions_dict`. -/
def exContains (ex : List ExchangePos) (k : String) : Bool :=
  ex.any (fun pos => decide (pos.instId = k))

/-- The bare untracked record built by `sync_positions_with_exchange`
(`bot/sync.py` lines 40-50) for an exchange position with no stored
risk data.  Keys absent from the source dict are the defaults later
reads fall back to (`original_size` is never read on such records). -/
def bareRecord (pos : ExchangePos) (now : ℚ) : Trade :=
  { direction := if 0 < pos.size then .long else .short
    entry_price := pos.avgPx
    size := |pos.size|
    original_size := |pos.size|
    stop_loss := none
    take_profit := none
    profit_levels := []
    profits_taken := []
    high_water_mark := none
    trailing_stop_active := false
    atr := 0
    signal_type := "manual_or_restart"
    opened_at := now
    paper_trade := false
    synced_from_exchange := true }

/-- The first loop of `sync_positions_with_exchange` (`bot/sync.py`
lines 26-54): every exchange-reported symbol absent from the ledger is
restored from storage when the stored record carries truthy
`stop_loss` and `take_profit`, otherwise added as a bare record. -/
def syncPhase1 (now : ℚ) : SyncState → List ExchangePos → SyncState
  | st, [] => st
  | st, pos :: rest =>
      let st' :=
        if containsKey st.open_trades pos.instId then st
        else
          match dlookup st.storage pos.instId with
          | some saved =>
              if truthy? saved.stop_loss && truthy? saved.take_profit then
                { st with open_trades := st.open_trades ++ [(pos.instId, saved)] }
              else
                { st with open_trades := st.open_trades ++ [(pos.instId, bareRecord pos now)] }
          | none =>
              { st with open_trades := st.open_trades ++ [(pos.instId, bareRecord pos now)] }
      syncPhase1 now st' rest

/-- The second loop of `sync_positions_with_exchange` (`bot/sync.py`
lines 56-71): every non-paper ledger symbol absent from the exchange's
report is removed from both ledger and store. -/
def syncPhase2 (ex : List ExchangePos) (st : SyncState) : SyncState :=
  let symbols_to_remove :=
    (st.open_trades.filter
      (fun p => !exContains ex p.1 && !p.2.paper_trade)).map Prod.fst
  { open_trades := removeAll st.open_trades symbols_to_remove
    storage := removeAll st.storage symbols_to_remove }

/-- Embedding of `PositionSynchronizer.sync_positions_with_exchange` (`bot/sync.py`
lines 11-77): restore/add untracked exchange positions, then drop
stale local ones. -/
def sync_positions_with_exchange (ex : List ExchangePos) (now : ℚ)
    (st : SyncState) : SyncState :=
  syncPhase2 ex (syncPhase1 now st ex)

/-- Realized flag of one profit level (`profits_taken.get(level,
False)`). -/
def takenFlag (pt : List (String × Bool)) (l : String) : Bool :=
  (dlookup pt l).getD false

/-- Number of realized profit levels among the four scanned labels. -/
def takenCount (pt : List (String × Bool)) : ℕ :=
  (if takenFlag pt "1R" then 1 else 0) + (if takenFlag pt "2R" then 1 else 0) +
  (if takenFlag pt "3R" then 1 else 0) + (if takenFlag pt "4R" then 1 else 0)

/-! ### Concrete fixtures used to instantiate the theorems -/

/-- Five identical 1-hour candles (high 3.1, low 2.9, close 3): too
few rows for the 14-period ATR, so the sizer's emergency recent-range
fallback applies. -/
def sampleCandles : List Candle := List.replicate 5 ⟨31/10, 29/10, 3⟩

/-- Margin snapshot with 100 USDT available. -/
def sampleMargin : MarginInfo := ⟨100, 100, 0⟩

/-- Sizer configuration with every optional key absent (source
defaults apply) and no configured memecoins. -/
def sampleSizerConfig : SizerConfig := ⟨[], none, none, none, none⟩

/-- Profit-taking fraction configuration: 25% at each level. -/
def sampleFracs : List (String × ℚ) := [("1R", 1/4), ("2R", 1/4), ("3R", 1/4), ("4R", 1/4)]

/-- Profit levels of the spec's running example (entry 100, stop 90,
long). -/
def sampleLevels : List (String × ℚ) :=
  [("1R", 110), ("2R", 120), ("3R", 130), ("4R", 140)]

/-- Long position from the spec's example after its 1R exit: entry
100, stop ratcheted to breakeven, 75% of the size remaining. -/
def tradeAt2R : Trade :=
  { direction := .long, entry_price := 100, size := 3/4, original_size := 1
    stop_loss := some 100, take_profit := some 120
    profit_levels := sampleLevels
    profits_taken := [("1R", true), ("2R", false), ("3R", false), ("4R", false)]
    high_water_mark := some 110, trailing_stop_active := false, atr := 5
    signal_type := "momentum", opened_at := 0, paper_trade := true
    synced_from_exchange := false }

/-- State of `tradeAt2R` after the 2R pass at price 120: 25% of the
size exited, 2R marked realized, and — by the source's
variable-shadowing slip — the stop loss set to the configured profit
*fraction* 1/4 instead of the 110 target. -/
def tradeAt2Rafter : Trade :=
  { tradeAt2R with
    size := 9/16
    profits_taken := [("1R", true), ("2R", true), ("3R", false), ("4R", false)]
    stop_loss := some (1/4)
    high_water_mark := some 120 }

/-- Long position in trailing-stop mode: all levels realized,
high-water mark 104, current stop 90, ATR 5. -/
def tradeTrailing : Trade :=
  { direction := .long, entry_price := 100, size := 1/4, original_size := 1
    stop_loss := some 90, take_profit := some 120
    profit_levels := sampleLevels
    profits_taken := [("1R", true), ("2R", true), ("3R", true), ("4R", true)]
    high_water_mark := some 104, trailing_stop_active := true, atr := 5
    signal_type := "momentum", opened_at := 0, paper_trade := true
    synced_from_exchange := false }

/-- Freshly opened live (non-paper) long position: entry 100, stop 90,
no level realized yet. -/
def tradeLive : Trade :=
  { direction := .long, entry_price := 100, size := 1, original_size := 1
    stop_loss := some 90, take_profit := some 120
    profit_levels := sampleLevels
    profits_taken := [("1R", false), ("2R", false), ("3R", false), ("4R", false)]
    high_water_mark := some 100, trailing_stop_active := false, atr := 5
    signal_type := "momentum", opened_at := 0, paper_trade := false
    synced_from_exchange := false }

/-- Safety state of the spec's example: baseline 10000, 50% kill
switch, 5% daily limit, flag clear. -/
def safety0 : Safety := ⟨10000, 1/2, 5, 1/20, 0, 0, 300, false⟩

/-- Same safety state with the sticky emergency stop already set. -/
def safetyStopped : Safety := ⟨10000, 1/2, 5, 1/20, 0, 0, 300, true⟩

/-- Entry environment whose live order submission fails with a
non-zero code. -/
def enterEnvFail : EnterEnv :=
  ⟨false, true, some 3, some sampleCandles, some sampleMargin, 0, true, "51008", 0⟩

/-! ## Helper lemmas -/

/-- Rounding an exact integer is the identity. -/
theorem pyRoundInt_intCast (n : ℤ) : pyRoundInt (n : ℚ) = n := by
  simp [pyRoundInt]

/-- Rounding via `pyRound` is the identity on rationals that are exact `k`-digit
decimals. -/
theorem pyRound_exact (n : ℤ) (k : ℕ) :
    pyRound ((n : ℚ) / (10:ℚ)^k) k = (n : ℚ) / (10:ℚ)^k := by
  have h : ((n : ℚ) / (10:ℚ)^k) * (10:ℚ)^k = (n : ℚ) := by
    field_simp
  rw [pyRound, h, pyRoundInt_intCast]

/-- Key-assignment / lookup interaction for the dict model. -/
theorem dlookup_dset {α : Type} (pt : List (String × α)) (l l' : String) (v : α) :
    dlookup (dset pt l v) l' = if l = l' then some v else dlookup pt l' := by
  induction pt with
  | nil => simp [dset, dlookup]
  | cons hd tl ih =>
      obtain ⟨k, w⟩ := hd
      by_cases hk : k = l
      · subst hk
        by_cases hl : k = l' <;> simp [dset, dlookup, hl]
      · by_cases hl : k = l'
        · subst hl
          simp [dset, dlookup, hk, ih]
          rw [if_neg (fun h => hk h.symm)]
        · simp [dset, dlookup, hk, hl, ih]

/-- Update `hwmUpdate` touches only `high_water_mark`. -/
theorem hwmUpdate_preserves (tr : Trade) (p : ℚ) :
    (hwmUpdate tr p).direction = tr.direction ∧
    (hwmUpdate tr p).entry_price = tr.entry_price ∧
    (hwmUpdate tr p).size = tr.size ∧
    (hwmUpdate tr p).stop_loss = tr.stop_loss ∧
    (hwmUpdate tr p).profit_levels = tr.profit_levels ∧
    (hwmUpdate tr p).profits_taken = tr.profits_taken ∧
    (hwmUpdate tr p).trailing_stop_active = tr.trailing_stop_active ∧
    (hwmUpdate tr p).atr = tr.atr ∧
    (hwmUpdate tr p).paper_trade = tr.paper_trade := by
  unfold hwmUpdate
  cases h : tr.direction <;> dsimp only <;> split <;> simp [h]

/-- For a long position the updated high-water mark is the maximum of
the old mark and the current price. -/
theorem hwmUpdate_long (tr : Trade) (p : ℚ) (h : tr.direction = .long) :
    (hwmUpdate tr p).high_water_mark.getD (hwmUpdate tr p).entry_price
      = max (tr.high_water_mark.getD tr.entry_price) p := by
  unfold hwmUpdate
  rw [h]
  dsimp only
  split
  · rename_i hc
    simp [max_eq_right (le_of_lt hc)]
  · rename_i hc
    simp [max_eq_left (le_of_not_lt hc)]

/-- For a short position the updated high-water mark is the minimum of
the old mark and the current price. -/
theorem hwmUpdate_short (tr : Trade) (p : ℚ) (h : tr.direction = .short) :
    (hwmUpdate tr p).high_water_mark.getD (hwmUpdate tr p).entry_price
      = min (tr.high_water_mark.getD tr.entry_price) p := by
  unfold hwmUpdate
  rw [h]
  dsimp only
  split
  · rename_i hc
    simp [min_eq_right (le_of_lt hc)]
  · rename_i hc
    simp [min_eq_left (le_of_not_lt hc)]

/-- The trailing-stop block either leaves the record alone or replaces
only the stop loss. -/
theorem trailingStage_cases (tr : Trade) (p : ℚ) :
    trailingStage tr p = tr ∨
    ∃ v, trailingStage tr p = { tr with stop_loss := some v } := by
  unfold trailingStage
  dsimp only
  repeat' split
  all_goals first
    | exact Or.inl rfl
    | exact Or.inr ⟨_, rfl⟩

/-- Characterization of the profit-level scan: either it returns the
record untouched (with no store flush), or it processed exactly one
level of the scanned list — shrinking the size, marking that level,
and possibly rewriting the stop loss or the trailing flag — and
flushed the store. -/
theorem levelLoop_spec (cfg : List (String × ℚ)) (ok : Bool) (p : ℚ) :
    ∀ (lvls : List String) (tr tr' : Trade) (b : Bool),
    levelLoop cfg ok p tr lvls = .ok (tr', b) →
    (tr' = tr ∧ b = false) ∨
    (∃ l ∈ lvls, ∃ sz s t,
      tr' = { tr with
                size := sz
                profits_taken := dset tr.profits_taken l true
                stop_loss := s
                trailing_stop_active := t } ∧ b = true) := by
  intro lvls
  induction lvls with
  | nil =>
      intro tr tr' b h
      simp only [levelLoop] at h
      cases h
      exact Or.inl ⟨rfl, rfl⟩
  | cons lvl rest ih =>
      intro tr tr' b h
      simp only [levelLoop] at h
      cases hpl : dlookup tr.profit_levels lvl with
      | none =>
          rw [hpl] at h
          rcases ih tr tr' b h with h1 | ⟨l, hl, w⟩
          · exact Or.inl h1
          · exact Or.inr ⟨l, List.mem_cons_of_mem _ hl, w⟩
      | some target =>
          rw [hpl] at h
          dsimp only at h
          split at h
          · rcases ih tr tr' b h with h1 | ⟨l, hl, w⟩
            · exact Or.inl h1
            · exact Or.inr ⟨l, List.mem_cons_of_mem _ hl, w⟩
          · split at h
            · -- target hit
              split at h
              · -- order succeeded
                split at h
                · -- lvl = "1R"
                  cases h
                  exact Or.inr ⟨lvl, List.mem_cons_self _ _, _, _, _, rfl, rfl⟩
                · split at h
                  · -- lvl = "2R"
                    cases hq : dlookup cfg "1R" with
                    | none => rw [hq] at h; cases h
                    | some v =>
                        rw [hq] at h
                        cases h
                        exact Or.inr ⟨lvl, List.mem_cons_self _ _, _, _, _, rfl, rfl⟩
                  · split at h
                    · -- lvl = "3R"
                      cases hq : dlookup cfg "2R" with
                      | none => rw [hq] at h; cases h
                      | some v =>
                          rw [hq] at h
                          cases h
                          exact Or.inr ⟨lvl, List.mem_cons_self _ _, _, _, _, rfl, rfl⟩
                    · split at h
                      · -- lvl = "4R"
                        cases h
                        exact Or.inr ⟨lvl, List.mem_cons_self _ _, _, _, _, rfl, rfl⟩
                      · cases h
                        exact Or.inr ⟨lvl, List.mem_cons_self _ _, _, _, _, rfl, rfl⟩
              · -- order failed: break with no mutation
                cases h
                exact Or.inl ⟨rfl, rfl⟩
            · rcases ih tr tr' b h with h1 | ⟨l, hl, w⟩
              · exact Or.inl h1
              · exact Or.inr ⟨l, List.mem_cons_of_mem _ hl, w⟩

/-- With a live (non-paper) trade and a failed reduce-only order, the
profit-level scan is a no-op that does not flush the store. -/
theorem levelLoop_orderFail (cfg : List (String × ℚ)) (p : ℚ) :
    ∀ (lvls : List String) (tr : Trade), tr.paper_trade = false →
    levelLoop cfg false p tr lvls = .ok (tr, false) := by
  intro lvls
  induction lvls with
  | nil => intro tr _; rfl
  | cons lvl rest ih =>
      intro tr h
      simp only [levelLoop]
      cases hpl : dlookup tr.profit_levels lvl with
      | none => exact ih tr h
      | some target =>
          dsimp only
          split
          · exact ih tr h
          · split
            · rw [h]
              simp
            · exact ih tr h

/-- Full characterization of the trailing-stop block: it either leaves
the record untouched, or rewrites only the stop loss to a value inside
the direction's sanity band relative to the entry price. -/
theorem trailingStage_spec (tr : Trade) (p : ℚ) :
    trailingStage tr p = tr ∨
    ∃ v, trailingStage tr p = { tr with stop_loss := some v } ∧
      ((tr.direction = .long ∧
        tr.entry_price * (5/10) ≤ v ∧ v ≤ tr.entry_price * (95/100)) ∨
       (tr.direction = .short ∧
        tr.entry_price * (105/100) ≤ v ∧ v ≤ tr.entry_price * 2)) := by
  obtain ⟨dir, ep, sz, os, sl?, tp, pl, pt, hwm, act, atr0, stype, oat, ppr, syn⟩ := tr
  cases dir with
  | long =>
      cases sl? with
      | none =>
          unfold trailingStage
          dsimp only
          repeat' split
          all_goals exact Or.inl rfl
      | some sl =>
          unfold trailingStage
          dsimp only
          split
          · split
            · rename_i hval
              split
              · exact Or.inr ⟨_, rfl, Or.inl ⟨rfl, of_decide_eq_true hval⟩⟩
              · exact Or.inl rfl
            · exact Or.inl rfl
          · exact Or.inl rfl
  | short =>
      cases sl? with
      | none =>
          unfold trailingStage
          dsimp only
          repeat' split
          all_goals exact Or.inl rfl
      | some sl =>
          unfold trailingStage
          dsimp only
          split
          · split
            · rename_i hval
              split
              · exact Or.inr ⟨_, rfl, Or.inr ⟨rfl, of_decide_eq_true hval⟩⟩
              · exact Or.inl rfl
            · exact Or.inl rfl
          · exact Or.inl rfl

/-- The trailing-stop block is a no-op when trailing mode is off. -/
theorem trailingStage_inactive (tr : Trade) (p : ℚ)
    (h : tr.trailing_stop_active = false) : trailingStage tr p = tr := by
  simp [trailingStage, h]

/-- No stop breach when the price is strictly on the favorable side of
the stop. -/
theorem stopBreached_false_of (tr : Trade) (p sl : ℚ) (hsl : tr.stop_loss = some sl)
    (hlong : tr.direction = .long → sl < p)
    (hshort : tr.direction = .short → p < sl) :
    stopBreached tr p = false := by
  unfold stopBreached
  rw [hsl]
  cases hd : tr.direction
  · exact decide_eq_false (not_le.mpr (hlong hd))
  · exact decide_eq_false (not_le.mpr (hshort hd))

/-- When a pass over a position with a set stop leaves some state, the
result is the trailing-stop block applied to the level-scan output of
the high-water-mark-updated record. -/
theorem evalStep_spec (cfg : List (String × ℚ)) (tr : Trade) (p : ℚ) (ok : Bool) (sl : ℚ)
    (hsl : tr.stop_loss = some sl) (tr' : Trade)
    (h : (evalStep cfg tr (some p) ok).state? = some tr') :
    ∃ tr1 b, levelLoop cfg ok p (hwmUpdate tr p) ["1R", "2R", "3R", "4R"] = .ok (tr1, b) ∧
      tr' = trailingStage tr1 p := by
  unfold evalStep at h
  rw [hsl] at h
  dsimp only at h
  cases hll : levelLoop cfg ok p (hwmUpdate tr p) ["1R", "2R", "3R", "4R"] with
  | error e =>
      rw [hll] at h
      dsimp only [StepRes.state?] at h
      cases h
  | ok pr =>
      obtain ⟨tr1, b⟩ := pr
      rw [hll] at h
      dsimp only at h
      split at h
      · dsimp only [StepRes.state?] at h
        rw [Option.some_inj] at h
        exact ⟨tr1, b, rfl, h.symm⟩
      · dsimp only [StepRes.state?] at h
        rw [Option.some_inj] at h
        exact ⟨tr1, b, rfl, h.symm⟩

/-- Concrete evaluation of one exit pass on the spec's example
position (entry 100, stop 90, long, 1R already realized) at price 120
with a successful order: 2R is realized, the size shrinks from 3/4 to
9/16, and the stop loss becomes the configured fraction 1/4. -/
theorem evalStep_tradeAt2R :
    evalStep sampleFracs tradeAt2R (some 120) true = .live tradeAt2Rafter true := by
  have hr0 : pyRound ((3:ℚ)/16) 4 = 3/16 := by norm_num [pyRound, pyRoundInt]
  have hr3 : pyRound ((9:ℚ)/16) 4 = 9/16 := by norm_num [pyRound, pyRoundInt]
  have hr1 : pyRound ((3:ℚ)/4 * (1/4)) 4 = 3/16 := by norm_num [pyRound, pyRoundInt]
  have hr2 : pyRound ((3:ℚ)/4 - 3/16) 4 = 9/16 := by norm_num [pyRound, pyRoundInt]
  simp [evalStep, levelLoop, hwmUpdate, trailingStage, stopBreached, tradeAt2R,
    tradeAt2Rafter, sampleFracs, sampleLevels, dlookup, dset, hr1, hr2]
  norm_num [hr0, hr3]

/-- Realized-flag bookkeeping: assigning a level flips only that
level. -/
theorem takenFlag_dset (pt : List (String × Bool)) (l l' : String) :
    takenFlag (dset pt l true) l' = if l = l' then true else takenFlag pt l' := by
  unfold takenFlag
  rw [dlookup_dset]
  split <;> simp

/-- Marking one level raises the realized count by at most one. -/
theorem takenCount_dset_le (pt : List (String × Bool)) (l : String) :
    takenCount (dset pt l true) ≤ takenCount pt + 1 := by
  unfold takenCount
  simp only [takenFlag_dset]
  split_ifs <;> first | omega | simp_all

/-- Marking a level never clears another. -/
theorem takenFlag_mono_dset (pt : List (String × Bool)) (l l' : String)
    (h : takenFlag pt l' = true) : takenFlag (dset pt l true) l' = true := by
  rw [takenFlag_dset]
  split <;> simp [h]

/-- The profit-level scan leaves the high-water mark, entry price and
direction alone. -/
theorem levelLoop_hwm (cfg : List (String × ℚ)) (ok : Bool) (p : ℚ)
    (lvls : List String) (tr tr1 : Trade) (b : Bool)
    (h : levelLoop cfg ok p tr lvls = .ok (tr1, b)) :
    tr1.high_water_mark = tr.high_water_mark ∧ tr1.entry_price = tr.entry_price ∧
    tr1.direction = tr.direction := by
  rcases levelLoop_spec cfg ok p lvls tr tr1 b h with ⟨he, _⟩ | ⟨l, _, sz, s, t, he, _⟩ <;>
    rw [he] <;> exact ⟨rfl, rfl, rfl⟩

/-- The profit-level scan either preserves the realized flags or marks
exactly one scanned level. -/
theorem levelLoop_profits (cfg : List (String × ℚ)) (ok : Bool) (p : ℚ)
    (lvls : List String) (tr tr1 : Trade) (b : Bool)
    (h : levelLoop cfg ok p tr lvls = .ok (tr1, b)) :
    tr1.profits_taken = tr.profits_taken ∨
    ∃ l ∈ lvls, tr1.profits_taken = dset tr.profits_taken l true := by
  rcases levelLoop_spec cfg ok p lvls tr tr1 b h with ⟨he, _⟩ | ⟨l, hl, sz, s, t, he, _⟩
  · rw [he]; exact Or.inl rfl
  · rw [he]; exact Or.inr ⟨l, hl, rfl⟩

/-- The trailing-stop block leaves every field but the stop loss
alone. -/
theorem trailingStage_preserves (tr : Trade) (p : ℚ) :
    (trailingStage tr p).direction = tr.direction ∧
    (trailingStage tr p).entry_price = tr.entry_price ∧
    (trailingStage tr p).size = tr.size ∧
    (trailingStage tr p).profits_taken = tr.profits_taken ∧
    (trailingStage tr p).high_water_mark = tr.high_water_mark := by
  rcases trailingStage_cases tr p with h | ⟨v, h⟩ <;> rw [h] <;>
    exact ⟨rfl, rfl, rfl, rfl, rfl⟩

/-! ## Claim theorems -/

/-- C10: a trailing-stop candidate is accepted (the stop actually
changes in the trailing block) only when it lies between 0.5× and
0.95× the entry price for a long — so an accepted update never puts a
long's stop above 95% of entry — and between 1.05× and 2.0× the entry
price for a short. -/
theorem C10_trailing_stop_sanity_band (tr : Trade) (p : ℚ)
    (hchange : (trailingStage tr p).stop_loss ≠ tr.stop_loss) :
    ∃ v, (trailingStage tr p).stop_loss = some v ∧
      (tr.direction = .long →
        tr.entry_price * (5/10) ≤ v ∧ v ≤ tr.entry_price * (95/100)) ∧
      (tr.direction = .short →
        tr.entry_price * (105/100) ≤ v ∧ v ≤ tr.entry_price * 2) := by
  rcases trailingStage_spec tr p with he | ⟨v, he, hband⟩
  · exact absurd (by rw [he]) hchange
  · refine ⟨v, by rw [he], ?_, ?_⟩
    · intro hd
      rcases hband with ⟨_, hb⟩ | ⟨hd2, _⟩
      · exact hb
      · rw [hd] at hd2; cases hd2
    · intro hd
      rcases hband with ⟨hd2, _⟩ | ⟨_, hb⟩
      · rw [hd] at hd2; cases hd2
      · exact hb

/-- Witness for C10: in trailing mode with entry 100, high-water mark
104 and ATR 5, the candidate 94 is accepted and lies in the band. -/
theorem C10_trailing_stop_sanity_band_witness :
    (trailingStage tradeTrailing 120).stop_loss ≠ tradeTrailing.stop_loss ∧
    ∃ v, (trailingStage tradeTrailing 120).stop_loss = some v ∧
      (tradeTrailing.direction = .long →
        tradeTrailing.entry_price * (5/10) ≤ v ∧
        v ≤ tradeTrailing.entry_price * (95/100)) ∧
      (tradeTrailing.direction = .short →
        tradeTrailing.entry_price * (105/100) ≤ v ∧
        v ≤ tradeTrailing.entry_price * 2) := by
  have h94 : (trailingStage tradeTrailing 120).stop_loss = some 94 := by
    norm_num [trailingStage, tradeTrailing, calculate_trailing_stop, pyRound, pyRoundInt]
  have hch : (trailingStage tradeTrailing 120).stop_loss ≠ tradeTrailing.stop_loss := by
    rw [h94]
    norm_num [tradeTrailing]
  exact ⟨hch, C10_trailing_stop_sanity_band tradeTrailing 120 hch⟩

/-- C3: when the reduce-only partial-exit order for a live position
fails, the evaluation pass leaves the level unrealized, the size
unchanged and the stop loss unratcheted (only the high-water mark may
move), and nothing is flushed to the store. -/
theorem C3_failed_partial_exit_preserves_state (cfg : List (String × ℚ))
    (tr : Trade) (p sl : ℚ)
    (hsl : tr.stop_loss = some sl)
    (hpaper : tr.paper_trade = false)
    (htrail : tr.trailing_stop_active = false)
    (hlong : tr.direction = .long → sl < p)
    (hshort : tr.direction = .short → p < sl) :
    evalStep cfg tr (some p) false = .live (hwmUpdate tr p) false ∧
    (hwmUpdate tr p).size = tr.size ∧
    (hwmUpdate tr p).profits_taken = tr.profits_taken ∧
    (hwmUpdate tr p).stop_loss = tr.stop_loss := by
  obtain ⟨_, _, hsize, hstop, _, hpt, htr2, _, hpp⟩ := hwmUpdate_preserves tr p
  have hdir : (hwmUpdate tr p).direction = tr.direction := (hwmUpdate_preserves tr p).1
  refine ⟨?_, hsize, hpt, hstop⟩
  unfold evalStep
  rw [hsl]
  dsimp only
  rw [levelLoop_orderFail cfg p _ _ (hpp.trans hpaper)]
  dsimp only
  rw [trailingStage_inactive _ _ (htr2.trans htrail)]
  rw [stopBreached_false_of (hwmUpdate tr p) p sl (hstop.trans hsl)
    (fun hd => hlong (hdir.symm.trans hd)) (fun hd => hshort (hdir.symm.trans hd))]
  simp

/-- Witness for C3: a live long at entry 100, stop 90, price 110 (1R
hit) with a failed exit order is left intact. -/
theorem C3_failed_partial_exit_preserves_state_witness :
    tradeLive.stop_loss = some 90 ∧ tradeLive.paper_trade = false ∧
    (evalStep sampleFracs tradeLive (some 110) false
        = .live (hwmUpdate tradeLive 110) false ∧
      (hwmUpdate tradeLive 110).size = tradeLive.size ∧
      (hwmUpdate tradeLive 110).profits_taken = tradeLive.profits_taken ∧
      (hwmUpdate tradeLive 110).stop_loss = tradeLive.stop_loss) :=
  ⟨rfl, rfl,
    C3_failed_partial_exit_preserves_state sampleFracs tradeLive 110 90 rfl rfl rfl
      (fun _ => by norm_num) (fun hd => by cases hd)⟩

/-- C7: in one exit-evaluation pass at most one profit level flips
from unrealized to realized (the scan breaks at the first hit level,
whether or not the exit order succeeds), and realized flags never
revert. -/
theorem C7_at_most_one_level_per_pass (cfg : List (String × ℚ)) (tr : Trade)
    (price? : Option ℚ) (ok : Bool) (tr' : Trade)
    (h : (evalStep cfg tr price? ok).state? = some tr') :
    takenCount tr'.profits_taken ≤ takenCount tr.profits_taken + 1 ∧
    ∀ l, takenFlag tr.profits_taken l = true → takenFlag tr'.profits_taken l = true := by
  cases price? with
  | none =>
      unfold evalStep at h
      dsimp only [StepRes.state?] at h
      rw [Option.some_inj] at h
      subst h
      exact ⟨Nat.le_succ _, fun l hl => hl⟩
  | some p =>
      cases hsl : tr.stop_loss with
      | none =>
          unfold evalStep at h
          rw [hsl] at h
          dsimp only [StepRes.state?] at h
          rw [Option.some_inj] at h
          subst h
          exact ⟨Nat.le_succ _, fun l hl => hl⟩
      | some sl =>
          obtain ⟨tr1, b, hll, htr'⟩ := evalStep_spec cfg tr p ok sl hsl tr' h
          have hpt' : tr'.profits_taken = tr1.profits_taken := by
            rw [htr']
            exact (trailingStage_preserves tr1 p).2.2.2.1
          have hpt0 : (hwmUpdate tr p).profits_taken = tr.profits_taken :=
            (hwmUpdate_preserves tr p).2.2.2.2.2.1
          rcases levelLoop_profits cfg ok p _ _ tr1 b hll with heq | ⟨l, _, heq⟩
          · have hfin : tr'.profits_taken = tr.profits_taken := by
              rw [hpt', heq, hpt0]
            rw [hfin]
            exact ⟨Nat.le_succ _, fun l hl => hl⟩
          · have hfin : tr'.profits_taken = dset tr.profits_taken l true := by
              rw [hpt', heq, hpt0]
            rw [hfin]
            exact ⟨takenCount_dset_le _ _, fun l' hl' => takenFlag_mono_dset _ _ _ hl'⟩

/-- Witness for C7: the 2R pass on the example position realizes one
further level and keeps 1R realized. -/
theorem C7_at_most_one_level_per_pass_witness :
    takenCount tradeAt2Rafter.profits_taken ≤ takenCount tradeAt2R.profits_taken + 1 ∧
    takenFlag tradeAt2Rafter.profits_taken "1R" = true := by
  have h := C7_at_most_one_level_per_pass sampleFracs tradeAt2R (some 120) true
    tradeAt2Rafter (by rw [evalStep_tradeAt2R]; rfl)
  exact ⟨h.1, h.2 "1R" rfl⟩

/-- C8: on every exit-evaluation pass over a position with a set stop,
the high-water mark moves exactly to the favorable extremum of its old
value and the current price — monotonically toward favorable
excursion, regardless of profit-level state. -/
theorem C8_high_water_mark_monotone (cfg : List (String × ℚ)) (tr : Trade)
    (p sl : ℚ) (ok : Bool) (tr' : Trade)
    (hsl : tr.stop_loss = some sl)
    (h : (evalStep cfg tr (some p) ok).state? = some tr') :
    (tr.direction = .long →
      tr'.high_water_mark.getD tr'.entry_price
        = max (tr.high_water_mark.getD tr.entry_price) p ∧
      tr.high_water_mark.getD tr.entry_price
        ≤ tr'.high_water_mark.getD tr'.entry_price) ∧
    (tr.direction = .short →
      tr'.high_water_mark.getD tr'.entry_price
        = min (tr.high_water_mark.getD tr.entry_price) p ∧
      tr'.high_water_mark.getD tr'.entry_price
        ≤ tr.high_water_mark.getD tr.entry_price) := by
  obtain ⟨tr1, b, hll, htr'⟩ := evalStep_spec cfg tr p ok sl hsl tr' h
  obtain ⟨hh1, he1, _⟩ := levelLoop_hwm cfg ok p _ _ tr1 b hll
  obtain ⟨_, he2, _, _, hh2⟩ := trailingStage_preserves tr1 p
  have hh : tr'.high_water_mark = (hwmUpdate tr p).high_water_mark := by
    rw [htr', hh2, hh1]
  have he : tr'.entry_price = (hwmUpdate tr p).entry_price := by
    rw [htr', he2, he1]
  constructor
  · intro hd
    have hmax := hwmUpdate_long tr p hd
    rw [hh, he, hmax]
    exact ⟨rfl, le_max_left _ _⟩
  · intro hd
    have hmin := hwmUpdate_short tr p hd
    rw [hh, he, hmin]
    exact ⟨rfl, min_le_left _ _⟩

/-- Witness for C8: the 2R pass moves the example's high-water mark
from 110 to max(110, 120) = 120. -/
theorem C8_high_water_mark_monotone_witness :
    tradeAt2R.stop_loss = some 100 ∧
    tradeAt2Rafter.high_water_mark.getD tradeAt2Rafter.entry_price
      = max (tradeAt2R.high_water_mark.getD tradeAt2R.entry_price) 120 := by
  have h := C8_high_water_mark_monotone sampleFracs tradeAt2R 120 100 true
    tradeAt2Rafter rfl (by rw [evalStep_tradeAt2R]; rfl)
  exact ⟨rfl, (h.1 rfl).1⟩

/-- C1 (code evaluation at the failing input): on the spec's example
position with 1R already realized, the 2R pass at price 120 with a
successful reduce-only exit sets `stop_loss` to the configured profit
fraction 1/4 — not to the 1R target price 110 recorded in
`profit_levels` as the claim requires — because line 243 of
`trade_executor.py` rebinds `profit_levels` to the config fraction
dict before the ratchet reads `profit_levels["1R"]`. -/
theorem C1_stop_ratchet_code_evaluation :
    (evalStep sampleFracs tradeAt2R (some 120) true).state?.map Trade.stop_loss
      = some (some (1/4)) ∧
    dlookup tradeAt2R.profit_levels "1R" = some 110 ∧ ((1:ℚ)/4) ≠ 110 := by
  refine ⟨?_, rfl, by norm_num⟩
  rw [evalStep_tradeAt2R]
  rfl

/-- C4: when the opening order fails in live mode (any non-zero
response code, including the distinguished margin-validation
rejection), `enter_trade` aborts without touching the ledger and
without writing to the store. -/
theorem C4_failed_order_leaves_ledger (cfg : SizerConfig) (env : EnterEnv)
    (ledger : List (String × Trade)) (symbol : String) (direction : Direction)
    (signal_type : String)
    (hpaper : env.paper_trading = false) (hcode : env.orderCode ≠ "0") :
    enter_trade cfg env ledger symbol direction signal_type = (ledger, false) := by
  unfold enter_trade
  split
  · rfl
  · cases env.price? with
    | none => rfl
    | some cp =>
        dsimp only
        cases env.candles? with
        | none => rfl
        | some cd =>
            dsimp only
            split
            · rfl
            · split
              · rfl
              · split
                · rfl
                · rw [hpaper]
                  simp [hcode]

/-- Witness for C4: a live entry whose order is rejected with code
51008 leaves an empty ledger empty. -/
theorem C4_failed_order_leaves_ledger_witness :
    enterEnvFail.paper_trading = false ∧ enterEnvFail.orderCode ≠ "0" ∧
    enter_trade sampleSizerConfig enterEnvFail [] "ADA-USDT-SWAP" .long "momentum"
      = ([], false) :=
  ⟨rfl, by decide,
    C4_failed_order_leaves_ledger sampleSizerConfig enterEnvFail [] "ADA-USDT-SWAP"
      .long "momentum" rfl (by decide)⟩

/-- C5: an equity reading at or below the kill-switch fraction of the
baseline sets the sticky `emergency_stop` and makes the call return
false; while the flag is set, every subsequent `should_allow_trading`
call returns false and leaves the state (hence the flag) unchanged,
whatever equity reports; only `reset_emergency_stop` clears it. -/
theorem C5_kill_switch_sticky :
    (∀ (s : Safety) (now e : ℚ) (c : ℕ),
      s.emergency_stop = false →
      s.equity_check_interval < now - s.last_equity_check →
      e ≤ s.starting_equity * s.equity_kill_switch_pct →
      (should_allow_trading s now (some e) c).1 = false ∧
      (should_allow_trading s now (some e) c).2.emergency_stop = true) ∧
    (∀ (s : Safety) (calls : List (ℚ × Option ℚ × ℕ)),
      s.emergency_stop = true →
      (∀ b ∈ (runCalls s calls).1, b = false) ∧ (runCalls s calls).2 = s) ∧
    (∀ s : Safety, (reset_emergency_stop s).emergency_stop = false) := by
  refine ⟨?_, ?_, fun s => rfl⟩
  · intro s now e c hstop hint he
    unfold should_allow_trading check_equity_kill_switch
    rw [hstop]
    simp only [Bool.false_eq_true, if_false]
    rw [if_pos hint, if_pos he]
    simp
  · intro s calls hstop
    induction calls with
    | nil => exact ⟨fun b hb => absurd hb (List.not_mem_nil b), rfl⟩
    | cons hd tl ih =>
        obtain ⟨now, eq, c⟩ := hd
        have hs : should_allow_trading s now eq c = (false, s) := by
          unfold should_allow_trading
          rw [hstop]
          simp
        unfold runCalls
        rw [hs]
        dsimp only
        refine ⟨?_, ih.2⟩
        intro b hb
        rcases List.mem_cons.mp hb with h | h
        · exact h
        · exact ih.1 b h

/-- Witness for C5: with baseline 10000 and kill fraction 1/2, an
equity reading of 5000 past the check interval halts trading and sets
the sticky flag. -/
theorem C5_kill_switch_sticky_witness :
    safety0.emergency_stop = false ∧
    (should_allow_trading safety0 400 (some 5000) 0).1 = false ∧
    (should_allow_trading safety0 400 (some 5000) 0).2.emergency_stop = true := by
  have h := C5_kill_switch_sticky.1 safety0 400 5000 0 rfl
    (by norm_num [safety0]) (by norm_num [safety0])
  exact ⟨rfl, h.1, h.2⟩

/-- C6: when the equity fetch raises during the periodic check,
`should_allow_trading` fails open — it returns true provided the
emergency stop is clear and the ledger is below the maximum open-trade
count. -/
theorem C6_fail_open_on_equity_error (s : Safety) (now : ℚ) (c : ℕ)
    (hstop : s.emergency_stop = false) (hc : c < s.max_open_trades) :
    (should_allow_trading s now none c).1 = true := by
  unfold should_allow_trading check_equity_kill_switch
  rw [hstop]
  simp only [Bool.false_eq_true, if_false]
  by_cases hint : s.equity_check_interval < now - s.last_equity_check
  · rw [if_pos hint]
    simp [check_position_limits, hc]
  · rw [if_neg hint]
    simp [check_position_limits, hc]

/-- Witness for C6: a failed equity fetch with the flag clear and no
open positions still allows trading. -/
theorem C6_fail_open_on_equity_error_witness :
    safety0.emergency_stop = false ∧ 0 < safety0.max_open_trades ∧
    (should_allow_trading safety0 400 none 0).1 = true :=
  ⟨rfl, by decide, C6_fail_open_on_equity_error safety0 400 0 rfl (by decide)⟩

/-- Case principle for a defaulted lookup: a property holding for
every table value and for the default holds for the lookup result. -/
theorem dlookup_getD_cases {α : Type} (P : α → Prop) (s : String) (dflt : α) :
    ∀ (d : List (String × α)), (∀ p ∈ d, P p.2) → P dflt →
    P ((dlookup d s).getD dflt) := by
  intro d
  induction d with
  | nil => intro _ hd; exact hd
  | cons hd0 tl ih =>
      intro hmem hd
      obtain ⟨k, v⟩ := hd0
      unfold dlookup
      split
      · simpa using hmem (k, v) (List.mem_cons_self _ _)
      · exact ih (fun p hp => hmem p (List.mem_cons_of_mem _ hp)) hd

/-- The lot size of any symbol is one of the five table values. -/
theorem lotCases (s : String) :
    lotSize s = 1/100 ∨ lotSize s = 1/10 ∨ lotSize s = 1 ∨ lotSize s = 10 ∨
    lotSize s = 100 := by
  unfold lotSize
  refine dlookup_getD_cases
    (fun q => q = 1/100 ∨ q = 1/10 ∨ q = 1 ∨ q = 10 ∨ q = 100)
    s (1/10) lot_sizes ?_ (by norm_num)
  intro p hp
  simp only [lot_sizes, List.mem_cons, List.not_mem_nil, or_false] at hp
  rcases hp with h|h|h|h|h|h|h|h|h|h|h|h <;> rw [h] <;> norm_num

/-- The round-then-floor step of `get_valid_lot_size` yields
`max(lots, 1)` whole lots. -/
theorem glsRounded (lot : ℚ) (hpos : 0 < lot) (lots : ℤ) :
    (if ((lots:ℚ)*lot) < lot then lot else (lots:ℚ)*lot)
      = ((max lots 1 : ℤ):ℚ) * lot ∧ (1:ℤ) ≤ max lots 1 := by
  refine ⟨?_, le_max_right _ _⟩
  split_ifs with hc
  · have h1 : (lots:ℚ) < 1 := by
      by_contra hge
      push_neg at hge
      have h2 : (1:ℚ)*lot ≤ (lots:ℚ)*lot := mul_le_mul_of_nonneg_right hge hpos.le
      rw [one_mul] at h2
      linarith
    have h2 : lots < 1 := by exact_mod_cast h1
    rw [max_eq_right (le_of_lt h2)]
    norm_num
  · have h1 : lot ≤ (lots:ℚ)*lot := not_lt.mp hc
    have hge : (1:ℚ) ≤ (lots:ℚ) := by
      by_contra hlt
      push_neg at hlt
      have h2 : (lots:ℚ)*lot < 1*lot := mul_lt_mul_of_pos_right hlt hpos
      rw [one_mul] at h2
      linarith
    have h2 : (1:ℤ) ≤ lots := by exact_mod_cast hge
    rw [max_eq_left h2]

/-- Core shape of `get_valid_lot_size`: when the final precision fix
is the identity on whole-lot multiples, the result is a positive whole
number of lots. -/
theorem gvls_core (symbol : String) (size : ℚ) (hpos : 0 < lotSize symbol)
    (hfix : ∀ m : ℤ, 1 ≤ m →
      (if 1 ≤ lotSize symbol then ((pyRoundInt ((m:ℚ) * lotSize symbol) : ℤ) : ℚ)
       else pyRound ((m:ℚ) * lotSize symbol) (lotDecimalPlaces (lotSize symbol)))
        = (m:ℚ) * lotSize symbol) :
    ∃ n : ℕ, 1 ≤ n ∧ get_valid_lot_size symbol size = (n:ℚ) * lotSize symbol := by
  unfold get_valid_lot_size
  dsimp only
  obtain ⟨heq, hmax⟩ := glsRounded (lotSize symbol) hpos (pyRoundInt (size / lotSize symbol))
  rw [heq]
  rw [hfix _ hmax]
  refine ⟨(max (pyRoundInt (size / lotSize symbol)) 1).toNat, by omega, ?_⟩
  congr 1
  have h2 : ((max (pyRoundInt (size / lotSize symbol)) 1).toNat : ℤ)
      = max (pyRoundInt (size / lotSize symbol)) 1 := Int.toNat_of_nonneg (by omega)
  exact_mod_cast congrArg (fun z : ℤ => (z : ℚ)) h2.symm

/-- C2 (counterexample): the sizer itself does not lot-round.  On a
concrete input it returns a nonzero size of 0.3333 contracts for
`ADA-USDT-SWAP`, whose lot size is 1.0 — below one lot and not a lot
multiple. -/
theorem C2_sizer_not_lot_rounded_counterexample :
    (get_stop_and_size sampleSizerConfig "ADA-USDT-SWAP" 3 .long (some sampleCandles)
        (some sampleMargin) 0).size = 3333/10000 ∧
    (0:ℚ) < 3333/10000 ∧ ((3333:ℚ)/10000) < lotSize "ADA-USDT-SWAP" := by
  refine ⟨?_, by norm_num, ?_⟩
  · have hp1 : pyRound ((1:ℚ)/3) 4 = 3333/10000 := by norm_num [pyRound, pyRoundInt]
    simp [get_stop_and_size, sampleCandles, calculate_atr, trueRanges, trueRanges.go,
      listMax, listMin, sampleSizerConfig, sampleMargin, dlookup, leverage_estimates,
      contract_multipliers, okx_position_limits, List.replicate, hp1]
    norm_num [hp1]
  · simp [lotSize, lot_sizes, dlookup]
    norm_num

/-- C2 (amended): lot rounding with a one-lot floor is applied at
order placement rather than inside the sizer: for every symbol and
requested size, `get_valid_lot_size` — which `place_order` applies to
the sizer's output before submission — returns a whole, positive
number of lots, never below one lot. -/
theorem C2_lot_rounding_applied_at_order_placement (symbol : String) (size : ℚ) :
    ∃ n : ℕ, 1 ≤ n ∧ get_valid_lot_size symbol size = (n:ℚ) * lotSize symbol ∧
      lotSize symbol ≤ get_valid_lot_size symbol size := by
  have hpos : 0 < lotSize symbol := by
    rcases lotCases symbol with h | h | h | h | h <;> rw [h] <;> norm_num
  have main : ∃ n : ℕ, 1 ≤ n ∧ get_valid_lot_size symbol size = (n:ℚ) * lotSize symbol := by
    rcases lotCases symbol with h | h | h | h | h
    · refine gvls_core symbol size hpos ?_
      intro m hm
      rw [h, if_neg (by norm_num)]
      have hdp : lotDecimalPlaces (1/100) = 2 := by simp [lotDecimalPlaces]
      have hv : (m:ℚ) * (1/100) = (m:ℚ)/(10:ℚ)^2 := by ring
      rw [hdp, hv, pyRound_exact]
    · refine gvls_core symbol size hpos ?_
      intro m hm
      rw [h, if_neg (by norm_num)]
      have hdp : lotDecimalPlaces (1/10) = 1 := by norm_num [lotDecimalPlaces]
      have hv : (m:ℚ) * (1/10) = (m:ℚ)/(10:ℚ)^1 := by ring
      rw [hdp, hv, pyRound_exact]
    · refine gvls_core symbol size hpos ?_
      intro m hm
      rw [h, if_pos (by norm_num)]
      have hv : (m:ℚ) * 1 = ((m:ℤ):ℚ) := by norm_num
      rw [hv, pyRoundInt_intCast]
    · refine gvls_core symbol size hpos ?_
      intro m hm
      rw [h, if_pos (by norm_num)]
      have hv : (m:ℚ) * 10 = ((m*10:ℤ):ℚ) := by push_cast; ring
      rw [hv, pyRoundInt_intCast]
    · refine gvls_core symbol size hpos ?_
      intro m hm
      rw [h, if_pos (by norm_num)]
      have hv : (m:ℚ) * 100 = ((m*100:ℤ):ℚ) := by push_cast; ring
      rw [hv, pyRoundInt_intCast]
  obtain ⟨n, hn, hval⟩ := main
  refine ⟨n, hn, hval, ?_⟩
  rw [hval]
  exact le_mul_of_one_le_left hpos.le (by exact_mod_cast hn)

theorem containsKey_iff {α : Type} (d : List (String × α)) (k : String) :
    containsKey d k = true ↔ ∃ p ∈ d, p.1 = k := by
  simp [containsKey, List.any_eq_true]

theorem exContains_iff (ex : List ExchangePos) (k : String) :
    exContains ex k = true ↔ ∃ pos ∈ ex, pos.instId = k := by
  simp [exContains, List.any_eq_true]

theorem containsKey_append_left {α : Type} (d e : List (String × α)) (k : String)
    (h : containsKey d k = true) : containsKey (d ++ e) k = true := by
  simp [containsKey, List.any_append] at h ⊢
  exact Or.inl h

theorem containsKey_append_self {α : Type} (d : List (String × α)) (k : String) (v : α) :
    containsKey (d ++ [(k, v)]) k = true := by
  simp [containsKey, List.any_append]

theorem syncPhase1_mono (now : ℚ) :
    ∀ (ex : List ExchangePos) (st : SyncState) (k : String),
    containsKey st.open_trades k = true →
    containsKey (syncPhase1 now st ex).open_trades k = true := by
  intro ex
  induction ex with
  | nil => intro st k h; exact h
  | cons pos rest ih =>
      intro st k h
      unfold syncPhase1
      dsimp only
      apply ih
      split
      · exact h
      · split
        · split
          · exact containsKey_append_left _ _ _ h
          · exact containsKey_append_left _ _ _ h
        · exact containsKey_append_left _ _ _ h

theorem syncPhase1_contains (now : ℚ) :
    ∀ (ex : List ExchangePos) (st : SyncState), ∀ pos ∈ ex,
    containsKey (syncPhase1 now st ex).open_trades pos.instId = true := by
  intro ex
  induction ex with
  | nil => intro st pos hp; cases hp
  | cons q rest ih =>
      intro st pos hp
      unfold syncPhase1
      dsimp only
      rcases List.mem_cons.mp hp with h | h
      · subst h
        apply syncPhase1_mono
        split
        · rename_i hc
          exact hc
        · split
          · split
            · exact containsKey_append_self _ _ _
            · exact containsKey_append_self _ _ _
          · exact containsKey_append_self _ _ _
      · exact ih _ pos h

theorem syncPhase1_skip (now : ℚ) :
    ∀ (ex : List ExchangePos) (st : SyncState),
    (∀ pos ∈ ex, containsKey st.open_trades pos.instId = true) →
    syncPhase1 now st ex = st := by
  intro ex
  induction ex with
  | nil => intro st _; rfl
  | cons q rest ih =>
      intro st h
      unfold syncPhase1
      dsimp only
      rw [if_pos (h q (List.mem_cons_self _ _))]
      exact ih st (fun pos hp => h pos (List.mem_cons_of_mem _ hp))

theorem mem_dremove {α : Type} (d : List (String × α)) (k : String) (p : String × α) :
    p ∈ dremove d k ↔ p ∈ d ∧ p.1 ≠ k := by
  simp [dremove, List.mem_filter]

theorem mem_removeAll {α : Type} :
    ∀ (l : List String) (d : List (String × α)) (p : String × α),
    p ∈ removeAll d l ↔ p ∈ d ∧ p.1 ∉ l := by
  intro l
  induction l with
  | nil => intro d p; simp [removeAll]
  | cons k rest ih =>
      intro d p
      unfold removeAll
      rw [ih, mem_dremove]
      simp [List.mem_cons, not_or]
      tauto

/-- C9: running the reconciler twice against the same exchange report
mutates nothing on the second run — every state reached by the first
`sync_positions_with_exchange` call (restored, bare, paper-kept or
stale-removed) is a fixed point of the second, whatever the wall-clock
times. -/
theorem C9_sync_idempotent (ex : List ExchangePos) (now1 now2 : ℚ) (st : SyncState) :
    sync_positions_with_exchange ex now2 (sync_positions_with_exchange ex now1 st)
      = sync_positions_with_exchange ex now1 st := by
  unfold sync_positions_with_exchange
  set s1 := syncPhase1 now1 st ex with hs1
  have hs2open : (syncPhase2 ex s1).open_trades
      = removeAll s1.open_trades
          ((s1.open_trades.filter
            (fun p => !exContains ex p.1 && !p.2.paper_trade)).map Prod.fst) := rfl
  set s2 := syncPhase2 ex s1 with hs2
  have hA : ∀ pos ∈ ex, containsKey s2.open_trades pos.instId = true := by
    intro pos hp
    have h1 : containsKey s1.open_trades pos.instId = true :=
      syncPhase1_contains now1 ex st pos hp
    obtain ⟨p, hpmem, hpk⟩ := (containsKey_iff _ _).mp h1
    refine (containsKey_iff _ _).mpr ⟨p, ?_, hpk⟩
    rw [hs2open, mem_removeAll]
    refine ⟨hpmem, ?_⟩
    intro hin
    obtain ⟨q, hq, hqk⟩ := List.mem_map.mp hin
    have hqpred := (List.mem_filter.mp hq).2
    simp only [Bool.and_eq_true, Bool.not_eq_true'] at hqpred
    have : exContains ex q.1 = true :=
      (exContains_iff _ _).mpr ⟨pos, hp, by rw [hqk, hpk]⟩
    rw [hqpred.1] at this
    cases this
  rw [syncPhase1_skip now2 ex s2 hA]
  have hfilter : s2.open_trades.filter
      (fun p => !exContains ex p.1 && !p.2.paper_trade) = [] := by
    rw [List.filter_eq_nil_iff]
    intro p hp hpred
    have hmem : p ∈ removeAll s1.open_trades
        ((s1.open_trades.filter
          (fun q => !exContains ex q.1 && !q.2.paper_trade)).map Prod.fst) := by
      rw [← hs2open]
      exact hp
    rw [mem_removeAll] at hmem
    exact hmem.2 (List.mem_map.mpr
      ⟨p, List.mem_filter.mpr ⟨hmem.1, hpred⟩, rfl⟩)
  show syncPhase2 ex s2 = s2
  unfold syncPhase2
  rw [hfilter]
  rfl

end Bot
